import Mathlib

/-!
Verification development for the module registry and dispatch engine of the
repository (src/jenkins_jobs/registry.py, class ModuleRegistry).

The embedding is shallow:
* Python/YAML values are modelled by the inductive `Value`.  A
  `jenkins_jobs.local_yaml.Jinja2Loader` instance (a lazily templated value)
  is the constructor `vjinja`.
* Python dicts are association lists with insertion order; `aset` models
  dict item assignment (replace the entry if the key is present, append
  otherwise) and `alookup` models `dict.get`.
* The mutable registry state that `dispatch` touches is `RState`:
  `masked_warned` (an instance attribute set in `__init__`, line 47) and
  `entry_points_cache` (the class attribute `_entry_points_cache`, line 39).
* Everything `dispatch` only reads is collected in `Env`:
  `modules_by_component_type` (the keys of the dict built in `__init__`),
  `component_list_type` (the pure result of `get_component_list_type`, whose
  `_component_type_cache` is semantically transparent), `parser_data`
  (the externally supplied macro definitions), `epSources` (the ordered
  `module_eps` list that lines 221-271 gather from module introspection and
  `pkg_resources.iter_entry_points` - external discovery, modelled as input),
  and `deepFormat` (the external `jenkins_jobs.formatter.deep_format`).
* Side effects are a trace of `Event`s: generator invocations
  (`func(self, xml_parent, component_data, **kwargs)` at line 309), the
  shadowing warning (line 293) and the formatting error log (line 206).
  Raised exceptions are `Err` values returned next to the trace; a re-raise
  is returning the same `Err` value.
* Recursion of `dispatch` through macro bodies is modelled with fuel, since
  the source has no cycle detection and a self-referential macro recurses
  forever; `Err.outOfFuel` marks exhaustion of the fuel and corresponds to
  no behaviour of a terminating Python run.
-/

namespace JJB

/-- Values of the YAML document / Python data model handled by dispatch. -/
inductive Value : Type where
  | vnone : Value
  | vbool : Bool → Value
  | vint : Int → Value
  | vstr : String → Value
  | vlist : List Value → Value
  | vdict : List (String × Value) → Value
  | vjinja : String → Value

mutual

/-- Boolean equality on values; the basis of the `DecidableEq` instance. -/
def beqV : Value → Value → Bool
  | .vnone, .vnone => true
  | .vbool a, .vbool b => a == b
  | .vint a, .vint b => a == b
  | .vstr a, .vstr b => a == b
  | .vjinja a, .vjinja b => a == b
  | .vlist xs, .vlist ys => beqL xs ys
  | .vdict xs, .vdict ys => beqD xs ys
  | _, _ => false

/-- Boolean equality on value lists. -/
def beqL : List Value → List Value → Bool
  | [], [] => true
  | x :: xs, y :: ys => beqV x y && beqL xs ys
  | _, _ => false

/-- Boolean equality on string-keyed value dicts. -/
def beqD : List (String × Value) → List (String × Value) → Bool
  | [], [] => true
  | (k1, x) :: xs, (k2, y) :: ys => (k1 == k2) && beqV x y && beqD xs ys
  | _, _ => false

end

mutual

theorem beqV_iff : ∀ a b, beqV a b = true ↔ a = b
  | .vnone, b => by cases b <;> simp [beqV]
  | .vbool a, b => by cases b <;> simp [beqV]
  | .vint a, b => by cases b <;> simp [beqV]
  | .vstr a, b => by cases b <;> simp [beqV]
  | .vjinja a, b => by cases b <;> simp [beqV]
  | .vlist xs, b => by
      cases b <;> simp [beqV]
      exact beqL_iff xs _
  | .vdict xs, b => by
      cases b <;> simp [beqV]
      exact beqD_iff xs _

theorem beqL_iff : ∀ xs ys, beqL xs ys = true ↔ xs = ys
  | [], ys => by cases ys <;> simp [beqL]
  | x :: xs, ys => by
      cases ys with
      | nil => simp [beqL]
      | cons y ys => simp [beqL, beqV_iff x y, beqL_iff xs ys]

theorem beqD_iff : ∀ xs ys, beqD xs ys = true ↔ xs = ys
  | [], ys => by cases ys <;> simp [beqD]
  | (k, x) :: xs, ys => by
      cases ys with
      | nil => simp [beqD]
      | cons p ys =>
        cases p with
        | mk k2 y => simp [beqD, beqV_iff x y, beqD_iff xs ys, and_assoc]

end

instance : DecidableEq Value := fun a b => decidable_of_iff _ (beqV_iff a b)

/-- Python truthiness of a `Value` (used by `if component:` at line 290,
`if template_data` at line 192 and `job_data or \x7b\x7d` at line 195).
A `Jinja2Loader` instance is an object and hence truthy. -/
def truthy : Value → Bool
  | .vnone => false
  | .vbool b => b
  | .vint n => n != 0
  | .vstr s => s != ""
  | .vlist xs => !xs.isEmpty
  | .vdict m => !m.isEmpty
  | .vjinja _ => true

/-- Test for `isinstance(component_data, Jinja2Loader)` (line 192). -/
def isJinja : Value → Bool
  | .vjinja _ => true
  | _ => false

/-- Exceptions that the modelled code can raise. `jjb` is
`JenkinsJobsException`; `typeError`, `keyError` and `stopIteration` are the
built-in Python exceptions reachable in `dispatch`; `external` stands for an
arbitrary exception escaping the external `deep_format`; `outOfFuel` is the
fuel marker of the embedding (see the file comment). -/
inductive Err : Type where
  | jjb : String → Err
  | typeError : Err
  | keyError : String → Err
  | stopIteration : Err
  | external : String → Err
  | outOfFuel : Err
deriving DecidableEq

/-- A generator function from the entry-point table: `gid` is its identity
and `args` the parameter-name list `getargspec(func).args` that
`_filter_kwargs` (lines 95-101) inspects. Its body is external (it mutates
the XML tree), so invoking it is recorded as an `Event.genCall`. -/
structure Gen : Type where
  gid : Nat
  args : List String
deriving DecidableEq

/-- Observable side effects of a dispatch. -/
inductive Event : Type where
  | warning : Value → String → Event
  | logError : Value → Value → Event
  | genCall : Nat → Value → Value → List (String × Value) → Event
deriving DecidableEq

/-- Membership of a string in a list of strings, as a Bool. -/
def memS (x : String) : List String → Bool
  | [] => false
  | y :: rest => if y = x then true else memS x rest

/-- Membership of a `Value` in a list of values, as a Bool. -/
def memV (x : Value) : List Value → Bool
  | [] => false
  | y :: rest => if y = x then true else memV x rest

/-- Association-list lookup, the model of Python `d.get(k)` for a dict with
keys of type `κ`. -/
def alookup {κ α : Type} [DecidableEq κ] : List (κ × α) → κ → Option α
  | [], _ => none
  | (k0, v0) :: rest, k => if k0 = k then some v0 else alookup rest k

/-- Association-list item assignment, the model of Python `d[k] = v`:
replace the (unique) entry when the key is present, append otherwise. -/
def aset {κ α : Type} [DecidableEq κ] : List (κ × α) → κ → α → List (κ × α)
  | [], k, v => [(k, v)]
  | (k0, v0) :: rest, k, v =>
    if k0 = k then (k, v) :: rest else (k0, v0) :: aset rest k v

/-- Model of Python `d.update(e)` for string-keyed dicts: item assignment of
every entry of `e` into `d`, in order. -/
def dictUpdate (d e : List (String × Value)) : List (String × Value) :=
  e.foldl (fun acc kv => aset acc kv.1 kv.2) d

/-- Lookup of a possibly non-string Python value in a string-keyed dict: it
hits only when the key is a string equal to an existing key (a key of a
different type is simply absent). -/
def lookupV {α : Type} (m : List (String × α)) (k : Value) : Option α :=
  match k with
  | .vstr s => alookup m s
  | _ => none

/-- Python `str()` of a component name as used in error message formatting;
names are strings in every reachable scenario, other values get a
placeholder rendering. -/
def strOf : Value → String
  | .vstr s => s
  | _ => "<value>"

/-- ModuleRegistry._filter_kwargs (lines 95-101): drop every keyword
argument whose name the function signature does not declare. -/
def filter_kwargs (args : List String) (kwargs : List (String × Value)) :
    List (String × Value) :=
  kwargs.filter (fun kv => memS kv.1 args)

/-- Python `a or b`. -/
def pyOr (a b : Value) : Value := if truthy a then a else b

/-- View a value as a dict, as `dict.update` requires of its argument;
other arguments raise (modelled as `typeError`). -/
def asDict : Value → Except Err (List (String × Value))
  | .vdict m => .ok m
  | _ => .error .typeError

/-- Mutable registry state touched by dispatch: `masked_warned` (instance
attribute, line 47) and `_entry_points_cache` (class attribute, line 39,
keyed by component list type). -/
structure RState : Type where
  masked_warned : List Value
  entry_points_cache : List (String × List (String × Gen))
deriving DecidableEq

/-- Read-only context of a dispatch (see the file comment). `epSources`
gives, per component list type, the ordered `module_eps` list of lines
221-271: auto-discovered docstring-tagged functions followed by externally
registered entry points. -/
structure Env : Type where
  modules_by_component_type : List String
  component_list_type : String → String
  parser_data : List (String × List (String × Value))
  epSources : String → List (String × Gen)
  deepFormat : Value → List (String × Value) → Bool → Except Err Value
  allow_empty_variables : Bool

/-- Lines 193-195: `paramdict = \x7b\x7d; paramdict.update(template_data);
paramdict.update(job_data or \x7b\x7d)`. -/
def paramDict (template_data job_data : Value) :
    Except Err (List (String × Value)) :=
  match asDict template_data with
  | .error e => .error e
  | .ok td =>
    match asDict (pyOr job_data (.vdict [])) with
    | .error e => .error e
    | .ok jd => .ok (dictUpdate (dictUpdate [] td) jd)

/-- Lines 189-215 of dispatch: extract the component name and data from the
component reference and, for a mapping reference, interpolate the data via
`deep_format` when `template_data` is truthy or the data is a
`Jinja2Loader`. A failed interpolation logs the name and the raw data and
re-raises the original error (lines 205-211). An empty mapping makes
`next(iter(component.items()))` raise `StopIteration`. A non-mapping
reference is used as the name itself with empty data (lines 212-215). -/
def extractComponent (env : Env) (component template_data job_data : Value) :
    List Event × Except Err (Value × Value) :=
  match component with
  | .vdict [] => ([], .error .stopIteration)
  | .vdict ((name, component_data) :: _) =>
    if truthy template_data || isJinja component_data then
      match paramDict template_data job_data with
      | .error e => ([], .error e)
      | .ok pd =>
        match env.deepFormat component_data pd env.allow_empty_variables with
        | .ok v => ([], .ok (.vstr name, v))
        | .error e => ([.logError (.vstr name) component_data], .error e)
    else ([], .ok (.vstr name, component_data))
  | other => ([], .ok (other, .vdict []))

/-- Message of the duplicate-entry-point error (lines 276-279); note the
source formats the dispatched component name, not the duplicated entry
point name, into the message. -/
def dupMsg (component_type : String) (nameV : Value) : String :=
  "Duplicate entry point found for component type: \x27" ++ component_type ++
    "\x27, \x27" ++ component_type ++ "\x27,name: \x27" ++ strOf nameV ++ "\x27"

/-- Lines 273-282: fold the ordered `module_eps` list into the table `eps`,
raising `JenkinsJobsException` on a name already present. -/
def buildEps (component_type : String) (nameV : Value) :
    List (String × Gen) → List (String × Gen) →
    Except Err (List (String × Gen))
  | [], eps => .ok eps
  | (n, g) :: rest, eps =>
    if memS n (eps.map Prod.fst) then .error (.jjb (dupMsg component_type nameV))
    else buildEps component_type nameV rest (eps ++ [(n, g)])

/-- Lines 217-286: fetch the entry-point table from the process-wide cache,
or build it and cache it; on a build failure the cache is left untouched
(the `raise` at line 276 precedes the cache write at line 285). -/
def getOrBuildEps (env : Env) (component_type : String) (nameV : Value)
    (component_list_type : String) (s : RState) :
    RState × Except Err (List (String × Gen)) :=
  match alookup s.entry_points_cache component_list_type with
  | some eps => (s, .ok eps)
  | none =>
    match buildEps component_type nameV (env.epSources component_list_type) [] with
    | .error e => (s, .error e)
    | .ok eps =>
      ({ s with entry_points_cache :=
          s.entry_points_cache ++ [(component_list_type, eps)] }, .ok eps)

/-- Line 289: `self.parser_data.get(component_type, \x7b\x7d).get(name)`. -/
def parserLookup (env : Env) (component_type : String) (nameV : Value) :
    Option Value :=
  lookupV ((alookup env.parser_data component_type).getD []) nameV

/-- Python truthiness of `dict.get`: `None` for a missing key is falsy. -/
def optTruthy : Option Value → Bool
  | none => false
  | some v => truthy v

/-- Lines 291-297: when the name is also an entry point and was not warned
about before, record it in `masked_warned` and log the shadowing warning. -/
def warnStep (eps : List (String × Gen)) (nameV : Value)
    (component_type : String) (s : RState) : RState × List Event :=
  if (lookupV eps nameV).isSome && !(memV nameV s.masked_warned) then
    ({ s with masked_warned := s.masked_warned ++ [nameV] },
      [.warning nameV component_type])
  else (s, [])

/-- Python iteration `for b in x`: lists yield elements, dicts their keys,
strings their characters; other values raise `TypeError`. -/
def pyIter : Value → Except Err (List Value)
  | .vlist xs => .ok xs
  | .vdict m => .ok (m.map (fun p => Value.vstr p.1))
  | .vstr st => .ok (st.data.map (fun ch => Value.vstr (String.mk [ch])))
  | _ => .error .typeError

/-- Line 299, `component[component_list_type]` followed by iteration: index
the macro body (a missing key raises `KeyError`, a non-dict body
`TypeError`) and iterate the result. -/
def getIter (mv : Value) (component_list_type : String) :
    Except Err (List Value) :=
  match mv with
  | .vdict m =>
    match alookup m component_list_type with
    | some item => pyIter item
    | none => .error (.keyError component_list_type)
  | _ => .error .typeError

/-- Lines 306-309: invoke the resolved generator
`func(self, xml_parent, component_data, **kwargs)` where
`kwargs = _filter_kwargs(func, job_data=job_data)`; or raise the
unknown-name error (lines 310-314). -/
def epsBranch (eps : List (String × Gen)) (nameV : Value)
    (component_type : String) (component_data job_data : Value)
    (exEvs : List Event) (s : RState) : RState × List Event × Option Err :=
  match lookupV eps nameV with
  | some func =>
    (s, exEvs ++ [.genCall func.gid nameV component_data
        (filter_kwargs func.args [("job_data", job_data)])], none)
  | none =>
    (s, exEvs, some (.jjb ("Unknown entry point or macro \x27" ++ strOf nameV ++
      "\x27 for component type: \x27" ++ component_type ++ "\x27.")))

/-- The loop at lines 299-305: dispatch each sub-component in declared
order, threading the registry state; an exception aborts the loop and
propagates. `step` is the recursive dispatch call. -/
def runList (step : Value → RState → RState × List Event × Option Err) :
    List Value → RState → RState × List Event × Option Err
  | [], t => (t, [], none)
  | b :: bs, t =>
    match step b t with
    | (t1, e1, some err) => (t1, e1, some err)
    | (t1, e1, none) =>
      match runList step bs t1 with
      | (t2, e2, r2) => (t2, e1 ++ e2, r2)

/-- One step of ModuleRegistry.dispatch (lines 157-314); `go` is the
recursive call used for macro sub-components (line 303), which receives
the data of the invoking component as `template_data` and the unchanged
`job_data`. The branch order mirrors the source: component-type check (line
181), name and data extraction (189-215), entry-point table (217-286),
macro check with shadowing warning (288-305), generator invocation or
unknown-name error (306-314). -/
def dispatchF (env : Env)
    (go : String → Value → Value → Value → RState →
      RState × List Event × Option Err)
    (component_type : String) (component template_data job_data : Value)
    (s : RState) : RState × List Event × Option Err :=
  if component_type ∈ env.modules_by_component_type then
    match extractComponent env component template_data job_data with
    | (exEvs, .error e) => (s, exEvs, some e)
    | (exEvs, .ok (nameV, component_data)) =>
      match getOrBuildEps env component_type nameV
          (env.component_list_type component_type) s with
      | (s1, .error e) => (s1, exEvs, some e)
      | (s1, .ok eps) =>
        match parserLookup env component_type nameV with
        | some mv =>
          if truthy mv then
            match getIter mv (env.component_list_type component_type) with
            | .error e =>
              ((warnStep eps nameV component_type s1).1,
                exEvs ++ (warnStep eps nameV component_type s1).2, some e)
            | .ok bs =>
              match
                runList (fun b t => go component_type b component_data job_data t)
                  bs (warnStep eps nameV component_type s1).1 with
              | (s2, subEvs, res) =>
                (s2, exEvs ++ (warnStep eps nameV component_type s1).2 ++ subEvs,
                  res)
          else epsBranch eps nameV component_type component_data job_data exEvs s1
        | none => epsBranch eps nameV component_type component_data job_data exEvs s1
  else
    (s, [], some (.jjb ("Unknown component type: \x27" ++ component_type ++ "\x27.")))

/-- ModuleRegistry.dispatch with fuel for the macro recursion. The Python
defaults are `template_data = \x7b\x7d` and `job_data = None`. -/
def dispatch (env : Env) : Nat → String → Value → Value → Value → RState →
    RState × List Event × Option Err
  | 0 => fun _ _ _ _ s => (s, [], some .outOfFuel)
  | fuel + 1 => dispatchF env (dispatch env fuel)

/-- Arguments of one top-level dispatch invocation. -/
structure Call : Type where
  component_type : String
  component : Value
  template_data : Value
  job_data : Value

/-- A sequence of top-level dispatch invocations against one registry
instance; a failed dispatch aborts only its own expansion (the caller
catches the exception per job), so the sequence continues with the state
the failed call left behind. -/
def runCalls (env : Env) (fuel : Nat) :
    List Call → RState → RState × List Event
  | [], s => (s, [])
  | c :: cs, s =>
    match dispatch env fuel c.component_type c.component c.template_data
        c.job_data s with
    | (s1, evs, _) =>
      match runCalls env fuel cs s1 with
      | (s2, evs2) => (s2, evs ++ evs2)

/-- Number of shadowing warnings for a given name in a trace. -/
def countWarn (nm : Value) : List Event → Nat
  | [] => 0
  | .warning n _ :: rest => (if n = nm then 1 else 0) + countWarn nm rest
  | _ :: rest => countWarn nm rest

/-- Whether a name is in the warned set, as 0 or 1. -/
def maskBit (nm : Value) (s : RState) : Nat :=
  if memV nm s.masked_warned then 1 else 0

/-- A process that constructs two ModuleRegistry instances and runs some
dispatches on each. Per `__init__` (line 47) each instance starts with a
fresh empty `masked_warned`; the class attribute `_entry_points_cache`
(line 39) is shared, so the second instance starts from the cache the first
one left behind. -/
def processTwoRegistries (env : Env) (fuel : Nat)
    (calls1 calls2 : List Call) : List Event :=
  match runCalls env fuel calls1 ⟨[], []⟩ with
  | (s1, evs1) =>
    match runCalls env fuel calls2 ⟨[], s1.entry_points_cache⟩ with
    | (_, evs2) => evs1 ++ evs2

/-! ## Version normalization (lines 70-73)

The source runs
`re.sub(r"(.*)-(?:SNAPSHOT|BETA).*", r"\g<1>.preview", version)`.
Since `.` does not match a newline, every match of the pattern lies within
one line; within a line, a match exists iff the line contains `-SNAPSHOT`
or `-BETA` somewhere, the greedy `(.*)` group then extends to the last such
occurrence, and the trailing `.*` swallows the rest of the line.  So the
substitution maps each line that contains a marker to the part before the
last marker followed by `.preview`, and leaves every other line unchanged.
The functions below implement exactly that per-line semantics. -/

def snapMarker : List Char := ['-', 'S', 'N', 'A', 'P', 'S', 'H', 'O', 'T']

def betaMarker : List Char := ['-', 'B', 'E', 'T', 'A']

def previewSuffix : List Char := ['.', 'p', 'r', 'e', 'v', 'i', 'e', 'w']

/-- Whether `p` is an initial segment of `l`. -/
def beginsWith : List Char → List Char → Bool
  | [], _ => true
  | _ :: _, [] => false
  | p :: ps, c :: cs => (p = c) && beginsWith ps cs

/-- Whether `-SNAPSHOT` or `-BETA` starts at position `p` of `l`. -/
def markerAt (l : List Char) (p : Nat) : Bool :=
  beginsWith snapMarker (l.drop p) || beginsWith betaMarker (l.drop p)

/-- Greatest position below `n` where a marker starts, scanning downward. -/
def lastMarkerAux (l : List Char) : Nat → Option Nat
  | 0 => none
  | n + 1 => if markerAt l n then some n else lastMarkerAux l n

/-- Greatest position in `l` where a marker starts, the position the greedy
`(.*)` group extends to. -/
def lastMarkerPos (l : List Char) : Option Nat := lastMarkerAux l l.length

/-- Whether the regex matches at all, i.e. some marker occurs in the
string. -/
def hasMarkerB (l : List Char) : Bool := (lastMarkerPos l).isSome

/-- The substitution applied to a single line. -/
def normalizeLine (l : List Char) : List Char :=
  match lastMarkerPos l with
  | some p => l.take p ++ previewSuffix
  | none => l

/-- Split a character list at newlines. -/
def splitLines : List Char → List (List Char)
  | [] => [[]]
  | c :: cs =>
    if c = '\n' then [] :: splitLines cs
    else
      match splitLines cs with
      | [] => [[c]]
      | line :: rest => (c :: line) :: rest

/-- Rejoin lines with newlines. -/
def joinLines : List (List Char) → List Char
  | [] => []
  | [l] => l
  | l :: ls => l ++ '\n' :: joinLines ls

/-- The version rewrite of `mutate_plugin_info` (lines 70-73). -/
def normalizeVersion (v : List Char) : List Char :=
  joinLines ((splitLines v).map normalizeLine)

/-- String wrapper of `normalizeVersion`. -/
def normalizeVersionS (s : String) : String :=
  String.mk (normalizeVersion s.data)

/-! ## Plugin metadata store (lines 62-93 and 103-128)

Python passes the very same (mutated) `plugin_info` dict object as the
value of every alias, so the store is modelled with one level of
indirection: `records` is the heap of mutated descriptors in input order
and `aliasIndex` maps each alias to the index of its record; two aliases
naming the same index reference the same record, not copies. -/

/-- The version mutation of `mutate_plugin_info` (lines 70-73):
`plugin_info["version"] = re.sub(..., plugin_info.get("version", "0"))`.
A plugin descriptor carries its version as a string; for a non-string
value `re.sub` would raise, which no claim exercises, so the value is kept
unchanged there. -/
def mutate_plugin_info (d : List (String × Value)) : List (String × Value) :=
  match (alookup d "version").getD (.vstr "0") with
  | .vstr s => aset d "version" (.vstr (normalizeVersionS s))
  | v => aset d "version" v

/-- Value of one alias key: a missing key (`dict.get` returns None) and an
explicit None value are both skipped (lines 77-79). -/
def aliasFilter : Option Value → Option Value
  | some Value.vnone => none
  | some v => some v
  | none => none

/-- Lines 75-79: the aliases of a descriptor are the values of its
`longName` and `shortName` keys, in that order, skipping missing keys and
`None` values. -/
def pluginAliases (d : List (String × Value)) : List Value :=
  ["longName", "shortName"].filterMap (fun k => aliasFilter (alookup d k))

/-- Lines 81-91: each descriptor maps every one of its aliases to its own
(shared) record; descriptor dicts are merged in input order with
`plugins_info_dict.update(d)`, so a later descriptor overwrites an earlier
one on an alias collision. `i` is the heap index of the first record of
`rs`. -/
def buildAliasIndex : List (List (String × Value)) → Nat →
    List (Value × Nat) → List (Value × Nat)
  | [], _, acc => acc
  | r :: rs, i, acc =>
    buildAliasIndex rs (i + 1)
      ((pluginAliases r).foldl (fun a2 al => aset a2 al i) acc)

/-- The plugin metadata store. -/
structure PluginStore : Type where
  records : List (List (String × Value))
  aliasIndex : List (Value × Nat)

/-- ModuleRegistry._get_plugins_info_dict (lines 62-93). -/
def get_plugins_info_dict (plugins_list : List (List (String × Value))) :
    PluginStore :=
  { records := plugins_list.map mutate_plugin_info
  , aliasIndex := buildAliasIndex (plugins_list.map mutate_plugin_info) 0 [] }

/-- The record (heap index) an alias references, if any. -/
def getPluginRef (st : PluginStore) (plugin_name : Value) : Option Nat :=
  alookup st.aliasIndex plugin_name

/-- ModuleRegistry.get_plugin_info (lines 103-128):
`self.plugins_dict.get(plugin_name, \x7b\x7d)`. -/
def get_plugin_info (st : PluginStore) (plugin_name : Value) :
    List (String × Value) :=
  match getPluginRef st plugin_name with
  | some i => (st.records.get? i).getD []
  | none => []

/-! ## Association list and trace lemmas -/

theorem alookup_cons_self {κ α : Type} [DecidableEq κ]
    (rest : List (κ × α)) (k : κ) (v : α) :
    alookup ((k, v) :: rest) k = some v := by simp [alookup]

theorem alookup_cons_ne {κ α : Type} [DecidableEq κ]
    (rest : List (κ × α)) (k0 k : κ) (v0 : α) (h : k0 ≠ k) :
    alookup ((k0, v0) :: rest) k = alookup rest k := by simp [alookup, h]

theorem alookup_aset_self {κ α : Type} [DecidableEq κ]
    (d : List (κ × α)) (k : κ) (v : α) : alookup (aset d k v) k = some v := by
  induction d with
  | nil => simp [aset, alookup]
  | cons kv rest ih =>
    by_cases h : kv.1 = k <;> simp [aset, alookup, h, ih]

theorem alookup_aset_ne {κ α : Type} [DecidableEq κ]
    (d : List (κ × α)) (k k' : κ) (v : α) (h : k ≠ k') :
    alookup (aset d k v) k' = alookup d k' := by
  induction d with
  | nil => simp [aset, alookup, h]
  | cons kv rest ih =>
    cases kv with
    | mk k0 v0 =>
      by_cases h2 : k0 = k
      · subst h2
        simp only [aset]
        rw [if_pos trivial, alookup_cons_ne _ _ _ _ h, alookup_cons_ne _ _ _ _ h]
      · simp only [aset, if_neg h2]
        by_cases h3 : k0 = k'
        · subst h3
          rw [alookup_cons_self, alookup_cons_self]
        · rw [alookup_cons_ne _ _ _ _ h3, alookup_cons_ne _ _ _ _ h3, ih]

theorem dictUpdate_cons (d : List (String × Value)) (k : String) (v : Value)
    (e : List (String × Value)) :
    dictUpdate d ((k, v) :: e) = dictUpdate (aset d k v) e := rfl

theorem alookup_dictUpdate_not_mem (e : List (String × Value)) :
    ∀ (d : List (String × Value)) (k : String),
    memS k (e.map Prod.fst) = false →
    alookup (dictUpdate d e) k = alookup d k := by
  induction e with
  | nil => intro d k _; rfl
  | cons kv e ih =>
    intro d k h
    cases kv with
    | mk k0 v0 =>
      simp only [List.map, memS] at h
      by_cases h0 : k0 = k
      · simp [h0] at h
      · rw [if_neg h0] at h
        rw [dictUpdate_cons, ih _ k h, alookup_aset_ne _ _ _ _ h0]

/-- Keys of a string-keyed dict are pairwise distinct (true of every list
that models a Python dict). -/
def nodupKeys : List (String × Value) → Bool
  | [] => true
  | (k, _) :: rest => !(memS k (rest.map Prod.fst)) && nodupKeys rest

theorem alookup_dictUpdate_mem (e : List (String × Value)) :
    ∀ (d : List (String × Value)) (k : String) (v : Value),
    nodupKeys e = true → alookup e k = some v →
    alookup (dictUpdate d e) k = some v := by
  induction e with
  | nil => intro d k v _ h; simp [alookup] at h
  | cons kv e ih =>
    intro d k v hnd h
    cases kv with
    | mk k0 v0 =>
      simp only [nodupKeys, Bool.and_eq_true, Bool.not_eq_true'] at hnd
      by_cases h0 : k0 = k
      · subst h0
        rw [alookup_cons_self] at h
        cases h
        rw [dictUpdate_cons, alookup_dictUpdate_not_mem e _ _ hnd.1,
          alookup_aset_self]
      · rw [alookup_cons_ne _ _ _ _ h0] at h
        rw [dictUpdate_cons, ih _ k v hnd.2 h]

theorem memV_append_one (x y : Value) (l : List Value) :
    memV x (l ++ [y]) = (memV x l || decide (y = x)) := by
  induction l with
  | nil => by_cases h : y = x <;> simp [memV, h]
  | cons z l ih => by_cases h : z = x <;> simp [memV, h, ih]

theorem countWarn_append (nm : Value) (a b : List Event) :
    countWarn nm (a ++ b) = countWarn nm a + countWarn nm b := by
  induction a with
  | nil => simp [countWarn]
  | cons e a ih =>
    cases e with
    | warning n ct => simp [countWarn, ih]; omega
    | logError a2 b2 => simp [countWarn, ih]
    | genCall a2 b2 c2 d2 => simp [countWarn, ih]

theorem countWarn_extract (env : Env) (c td jd nm : Value) :
    countWarn nm (extractComponent env c td jd).1 = 0 := by
  unfold extractComponent
  split
  · simp [countWarn]
  · split
    · split
      · simp [countWarn]
      · split <;> simp [countWarn]
    · simp [countWarn]
  · simp [countWarn]

theorem maskBit_le_one (nm : Value) (s : RState) : maskBit nm s ≤ 1 := by
  unfold maskBit; split <;> omega

theorem warnStep_bound (nm : Value) (eps : List (String × Gen)) (nv : Value)
    (ct : String) (s : RState) :
    countWarn nm (warnStep eps nv ct s).2 + maskBit nm s ≤
      maskBit nm (warnStep eps nv ct s).1 := by
  unfold warnStep
  split
  · rename_i h
    simp only [Bool.and_eq_true, Bool.not_eq_true'] at h
    by_cases hx : nv = nm
    · subst hx
      simp [countWarn, maskBit, memV_append_one, h.2]
    · simp [countWarn, maskBit, memV_append_one, hx]
  · simp [countWarn]

theorem warnStep_masked (nm : Value) (eps : List (String × Gen)) (nv : Value)
    (ct : String) (s : RState) :
    maskBit nm s ≤ maskBit nm (warnStep eps nv ct s).1 := by
  have h := warnStep_bound nm eps nv ct s
  omega

theorem getOrBuildEps_masked (env : Env) (ct : String) (nv : Value)
    (lt : String) (s : RState) :
    ((getOrBuildEps env ct nv lt s).1).masked_warned = s.masked_warned := by
  unfold getOrBuildEps
  split
  · rfl
  · split <;> rfl

theorem epsBranch_fst (eps : List (String × Gen)) (nv : Value) (ct : String)
    (cd jd : Value) (exEvs : List Event) (s : RState) :
    (epsBranch eps nv ct cd jd exEvs s).1 = s := by
  unfold epsBranch; split <;> rfl

theorem countWarn_epsBranch (nm : Value) (eps : List (String × Gen))
    (nv : Value) (ct : String) (cd jd : Value) (exEvs : List Event)
    (s : RState) :
    countWarn nm (epsBranch eps nv ct cd jd exEvs s).2.1 =
      countWarn nm exEvs := by
  unfold epsBranch; split <;> simp [countWarn_append, countWarn]

theorem runList_warn (nm : Value)
    (step : Value → RState → RState × List Event × Option Err)
    (hstep : ∀ b t, countWarn nm (step b t).2.1 + maskBit nm t ≤
      maskBit nm (step b t).1) :
    ∀ (bs : List Value) (t : RState),
      countWarn nm (runList step bs t).2.1 + maskBit nm t ≤
        maskBit nm (runList step bs t).1 := by
  intro bs
  induction bs with
  | nil => intro t; simp [runList, countWarn]
  | cons b bs ih =>
    intro t
    have h1 := hstep b t
    rcases hs : step b t with ⟨t1, e1, r1⟩
    rw [hs] at h1
    cases r1 with
    | some err => simpa [runList, hs] using h1
    | none =>
      have h2 := ih t1
      rcases hr : runList step bs t1 with ⟨t2, e2, r2⟩
      rw [hr] at h2
      simp only [runList, hs, hr, countWarn_append]
      simp only at h1 h2
      omega

/-- Unfolding of one fuel step. -/
theorem dispatch_succ (env : Env) (n : Nat) :
    dispatch env (n + 1) = dispatchF env (dispatch env n) := rfl

/-- Main invariant behind the shadowing warning: across one dispatch (at
any fuel), the number of warnings logged for a name plus the incoming
warned-bit for that name is bounded by the outgoing warned-bit; since a bit
is at most one, a warning can be logged at most once as long as the
`masked_warned` set is threaded through. -/
theorem dispatch_warn (env : Env) (nm : Value) :
    ∀ (fuel : Nat) (ct : String) (c td jd : Value) (s : RState),
      countWarn nm (dispatch env fuel ct c td jd s).2.1 + maskBit nm s ≤
        maskBit nm (dispatch env fuel ct c td jd s).1 := by
  intro fuel
  induction fuel with
  | zero => intro ct c td jd s; simp [dispatch, countWarn]
  | succ n ih =>
    intro ct c td jd s
    rw [dispatch_succ]
    unfold dispatchF
    split
    · -- component type known
      split
      · -- extraction failed
        rename_i exEvs e heq
        have h0 := countWarn_extract env c td jd nm
        rw [heq] at h0
        simp only at h0
        simp [h0]
      · -- extraction succeeded
        rename_i exEvs nameV cd heq
        have h0 := countWarn_extract env c td jd nm
        rw [heq] at h0
        simp only at h0
        split
        · -- entry point table build failed
          rename_i s1 e heq2
          have hm := getOrBuildEps_masked env ct nameV
            (env.component_list_type ct) s
          rw [heq2] at hm
          simp only at hm
          simp [h0, maskBit, hm]
        · -- entry point table available
          rename_i s1 eps heq2
          have hm := getOrBuildEps_masked env ct nameV
            (env.component_list_type ct) s
          rw [heq2] at hm
          simp only at hm
          have hms : maskBit nm s1 = maskBit nm s := by simp [maskBit, hm]
          split
          · -- a macro entry exists
            rename_i mv heq3
            split
            · -- macro is truthy: warn step, then body expansion
              split
              · -- body iteration failed
                rename_i e heq4
                have hw := warnStep_bound nm eps nameV ct s1
                simp only [countWarn_append, h0]
                omega
              · -- body expansion via runList
                rename_i bs heq4
                split
                rename_i s2 subEvs res heq5
                have hw := warnStep_bound nm eps nameV ct s1
                have hr := runList_warn nm
                  (fun b t => dispatch env n ct b cd jd t)
                  (fun b t => ih ct b cd jd t) bs
                  (warnStep eps nameV ct s1).1
                rw [heq5] at hr
                simp only at hr
                simp only [countWarn_append, h0]
                omega
            · -- macro entry is falsy: generator branch
              have he1 := countWarn_epsBranch nm eps nameV ct cd jd exEvs s1
              have he2 := epsBranch_fst eps nameV ct cd jd exEvs s1
              rw [he1, he2, h0, hms]
              omega
          · -- no macro entry: generator branch
            have he1 := countWarn_epsBranch nm eps nameV ct cd jd exEvs s1
            have he2 := epsBranch_fst eps nameV ct cd jd exEvs s1
            rw [he1, he2, h0, hms]
            omega
    · -- unknown component type
      simp [countWarn]

/-- The warning invariant extended over a sequence of dispatches on one
registry. -/
theorem runCalls_warn (env : Env) (nm : Value) (fuel : Nat) :
    ∀ (calls : List Call) (s : RState),
      countWarn nm (runCalls env fuel calls s).2 + maskBit nm s ≤
        maskBit nm (runCalls env fuel calls s).1 := by
  intro calls
  induction calls with
  | nil => intro s; simp [runCalls, countWarn]
  | cons c cs ih =>
    intro s
    have h1 := dispatch_warn env nm fuel c.component_type c.component
      c.template_data c.job_data s
    rcases hs : dispatch env fuel c.component_type c.component
      c.template_data c.job_data s with ⟨s1, evs, r⟩
    rw [hs] at h1
    simp only at h1
    have h2 := ih s1
    rcases hr : runCalls env fuel cs s1 with ⟨s2, evs2⟩
    rw [hr] at h2
    simp only at h2
    simp only [runCalls, hs, hr, countWarn_append]
    omega

/-! ## Branch unfoldings of dispatch -/

theorem filter_kwargs_single (args : List String) (jd : Value) :
    filter_kwargs args [("job_data", jd)] =
      if memS "job_data" args then [("job_data", jd)] else [] := by
  cases h : memS "job_data" args <;>
    simp [filter_kwargs, List.filter_cons, List.filter_nil, h]

/-- When the extracted name has no truthy macro entry, dispatch falls
through to the generator branch (lines 306-314). -/
theorem dispatch_leaf (env : Env) (fuel : Nat) (ct : String)
    (c td jd : Value) (s : RState) (exEvs : List Event) (nameV cd : Value)
    (s1 : RState) (eps : List (String × Gen))
    (hct : ct ∈ env.modules_by_component_type)
    (hex : extractComponent env c td jd = (exEvs, .ok (nameV, cd)))
    (heps : getOrBuildEps env ct nameV (env.component_list_type ct) s =
      (s1, .ok eps))
    (hmac : optTruthy (parserLookup env ct nameV) = false) :
    dispatch env (fuel + 1) ct c td jd s =
      epsBranch eps nameV ct cd jd exEvs s1 := by
  rw [dispatch_succ]
  unfold dispatchF
  rw [if_pos hct, hex]
  simp only
  rw [heps]
  simp only
  cases hp : parserLookup env ct nameV with
  | none => simp only
  | some mv =>
    rw [hp] at hmac
    simp only [optTruthy] at hmac
    simp only [hmac, Bool.false_eq_true, if_false]

/-- When the extracted name has a truthy macro entry whose body yields the
sub-component list `bs`, dispatch performs the warning step and then the
recursive expansion of `bs` (lines 288-305). -/
theorem dispatch_expand (env : Env) (fuel : Nat) (ct : String)
    (c td jd : Value) (s : RState) (exEvs : List Event) (nameV cd : Value)
    (s1 : RState) (eps : List (String × Gen)) (mv : Value) (bs : List Value)
    (hct : ct ∈ env.modules_by_component_type)
    (hex : extractComponent env c td jd = (exEvs, .ok (nameV, cd)))
    (heps : getOrBuildEps env ct nameV (env.component_list_type ct) s =
      (s1, .ok eps))
    (hmv : parserLookup env ct nameV = some mv)
    (htr : truthy mv = true)
    (hbs : getIter mv (env.component_list_type ct) = .ok bs) :
    dispatch env (fuel + 1) ct c td jd s =
      ((runList (fun b t => dispatch env fuel ct b cd jd t) bs
          (warnStep eps nameV ct s1).1).1,
        exEvs ++ (warnStep eps nameV ct s1).2 ++
          (runList (fun b t => dispatch env fuel ct b cd jd t) bs
            (warnStep eps nameV ct s1).1).2.1,
        (runList (fun b t => dispatch env fuel ct b cd jd t) bs
          (warnStep eps nameV ct s1).1).2.2) := by
  rw [dispatch_succ]
  unfold dispatchF
  rw [if_pos hct, hex]
  simp only
  rw [heps]
  simp only
  rw [hmv]
  simp only [htr, if_true]
  rw [hbs]

/-- Whether the ordered entry-point source list declares a name already in
`accNames`, or declares some name twice. With `accNames = []` this is
exactly the condition under which the fold of lines 273-282 hits the
duplicate check. -/
def clash : List (String × Gen) → List String → Bool
  | [], _ => false
  | (n, _) :: rest, accNames => memS n accNames || clash rest (accNames ++ [n])

theorem buildEps_clash (ct : String) (nv : Value) :
    ∀ (sources acc : List (String × Gen)),
    clash sources (acc.map Prod.fst) = true →
    buildEps ct nv sources acc = .error (.jjb (dupMsg ct nv)) := by
  intro sources
  induction sources with
  | nil => intro acc h; simp [clash] at h
  | cons p rest ih =>
    intro acc h
    cases p with
    | mk n g =>
      simp only [clash, Bool.or_eq_true] at h
      by_cases hm : memS n (acc.map Prod.fst) = true
      · simp [buildEps, hm]
      · have h2 : clash rest ((acc ++ [(n, g)]).map Prod.fst) = true := by
          rcases h with h | h
          · exact absurd h hm
          · rw [List.map_append]; exact h
        simp only [buildEps, hm, Bool.false_eq_true, if_false]
        exact ih (acc ++ [(n, g)]) h2

/-! ## Concrete fixtures used by witnesses and counterexamples -/

/-- A generator whose signature does not declare `job_data`. -/
def gBuild : Gen := ⟨0, ["registry", "xml_parent", "data"]⟩

/-- A generator whose signature declares `job_data`. -/
def gOther : Gen := ⟨1, ["registry", "xml_parent", "data", "job_data"]⟩

/-- Fixture of the spec scenario: component type `builder` with list type
`builders`; a user macro `build` whose body dispatches `other`; entry
points `build` (masked by the macro) and `other`. -/
def E0 : Env :=
  { modules_by_component_type := ["builder"]
  , component_list_type := fun _ => "builders"
  , parser_data := [("builder",
      [("build", .vdict [("builders", .vlist [.vstr "other"])])])]
  , epSources := fun lt =>
      if lt = "builders" then [("build", gBuild), ("other", gOther)] else []
  , deepFormat := fun v _ _ => .ok v
  , allow_empty_variables := false }

/-- Dispatch of the macro-masked name `build`. -/
def c0 : Call := ⟨"builder", .vstr "build", .vdict [], .vnone⟩

/-- Sub-builder generators for the parameterization fixture. -/
def g1 : Gen := ⟨1, ["registry", "xml_parent", "data"]⟩

def g2 : Gen := ⟨2, ["registry", "xml_parent", "data"]⟩

/-- The body of the `greeter` macro: two sub-builders in declared order. -/
def E1subs : List Value :=
  [.vdict [("b1", .vdict [("p", .vstr "u")])],
   .vdict [("b2", .vdict [("q", .vstr "v")])]]

/-- Parameterization fixture: a macro `greeter` with two sub-builders. Its
`deepFormat` returns the parameter dict itself, so every `genCall` event
displays the template context the sub-component was interpolated with. -/
def E1 : Env :=
  { modules_by_component_type := ["builder"]
  , component_list_type := fun _ => "builders"
  , parser_data := [("builder",
      [("greeter", .vdict [("builders", .vlist E1subs)])])]
  , epSources := fun lt => if lt = "builders" then [("b1", g1), ("b2", g2)] else []
  , deepFormat := fun _ pd _ => .ok (.vdict pd)
  , allow_empty_variables := false }

/-- Fixture whose entry-point sources declare the same name twice. -/
def E3 : Env :=
  { modules_by_component_type := ["builder"]
  , component_list_type := fun _ => "builders"
  , parser_data := []
  , epSources := fun _ => [("dup", gBuild), ("dup", gOther)]
  , deepFormat := fun v _ _ => .ok v
  , allow_empty_variables := false }

/-- Fixture with two plain generators and no macros. -/
def E4 : Env :=
  { modules_by_component_type := ["builder"]
  , component_list_type := fun _ => "builders"
  , parser_data := []
  , epSources := fun _ => [("a", gBuild), ("b", gOther)]
  , deepFormat := fun v _ _ => .ok v
  , allow_empty_variables := false }

/-- Fixture whose `deepFormat` always fails. -/
def E6 : Env :=
  { modules_by_component_type := ["builder"]
  , component_list_type := fun _ => "builders"
  , parser_data := []
  , epSources := fun _ => [("a", gBuild)]
  , deepFormat := fun _ _ _ => .error (.external "boom")
  , allow_empty_variables := false }

/-- Fixture with falsy macro entries: `x` maps to an empty dict, `y` to
None; `x` is also an entry point, `y` is not. -/
def E10 : Env :=
  { modules_by_component_type := ["builder"]
  , component_list_type := fun _ => "builders"
  , parser_data := [("builder", [("x", .vdict []), ("y", .vnone)])]
  , epSources := fun _ => [("x", gBuild)]
  , deepFormat := fun v _ _ => .ok v
  , allow_empty_variables := false }

/-! ## Claims -/

/-- C1: when dispatch resolves the extracted name to a truthy macro entry
whose body under the resolved list-type key yields the sub-component list
`bs`, its result is exactly the recursive expansion of `bs` in declared
order (`runList` processes the head first and threads the state), where
every recursive call receives the `component_data` of the invoking
component as its `template_data` and the same `job_data` unchanged;
the trace is the extraction events, then the possible shadowing warning,
then the concatenated sub-dispatch traces. -/
theorem C1_subcomponent_expansion (env : Env) (fuel : Nat) (ct : String)
    (c td jd : Value) (s : RState) (exEvs : List Event) (nameV cd : Value)
    (s1 : RState) (eps : List (String × Gen)) (mv : Value) (bs : List Value)
    (hct : ct ∈ env.modules_by_component_type)
    (hex : extractComponent env c td jd = (exEvs, .ok (nameV, cd)))
    (heps : getOrBuildEps env ct nameV (env.component_list_type ct) s =
      (s1, .ok eps))
    (hmv : parserLookup env ct nameV = some mv)
    (htr : truthy mv = true)
    (hbs : getIter mv (env.component_list_type ct) = .ok bs) :
    dispatch env (fuel + 1) ct c td jd s =
      ((runList (fun b t => dispatch env fuel ct b cd jd t) bs
          (warnStep eps nameV ct s1).1).1,
        exEvs ++ (warnStep eps nameV ct s1).2 ++
          (runList (fun b t => dispatch env fuel ct b cd jd t) bs
            (warnStep eps nameV ct s1).1).2.1,
        (runList (fun b t => dispatch env fuel ct b cd jd t) bs
          (warnStep eps nameV ct s1).1).2.2) :=
  dispatch_expand env fuel ct c td jd s exEvs nameV cd s1 eps mv bs
    hct hex heps hmv htr hbs

/-- Witness for C1: the spec scenario of a macro with two sub-builders
dispatched with component data x = 1. Both sub-builders are dispatched in
declared order and each genCall shows the parameter dict it was
interpolated with, namely x = 1. -/
theorem C1_witness :
    dispatch E1 2 "builder" (.vdict [("greeter", .vdict [("x", .vint 1)])])
        (.vdict []) .vnone ⟨[], []⟩ =
      (⟨[], [("builders", [("b1", g1), ("b2", g2)])]⟩,
        [Event.genCall 1 (.vstr "b1") (.vdict [("x", .vint 1)]) [],
         Event.genCall 2 (.vstr "b2") (.vdict [("x", .vint 1)]) []], none) := by
  rw [C1_subcomponent_expansion E1 1 "builder"
    (.vdict [("greeter", .vdict [("x", .vint 1)])]) (.vdict []) .vnone
    ⟨[], []⟩ [] (.vstr "greeter") (.vdict [("x", .vint 1)])
    ⟨[], [("builders", [("b1", g1), ("b2", g2)])]⟩ [("b1", g1), ("b2", g2)]
    (.vdict [("builders", .vlist E1subs)]) E1subs
    (by decide) rfl rfl rfl rfl rfl]
  decide

/-- C9: a mapping component reference with more than one key raises no
error for its shape: dispatch behaves exactly as if the reference were the
singleton mapping of its first key/value pair (the first entry in dict
iteration order), every other pair being silently ignored. -/
theorem C9_first_pair (env : Env) (fuel : Nat) (ct : String) (k : String)
    (v : Value) (rest : List (String × Value)) (td jd : Value) (s : RState) :
    dispatch env fuel ct (.vdict ((k, v) :: rest)) td jd s =
      dispatch env fuel ct (.vdict [(k, v)]) td jd s := by
  cases fuel with
  | zero => rfl
  | succ n =>
    rw [dispatch_succ]
    unfold dispatchF
    have hx : extractComponent env (.vdict ((k, v) :: rest)) td jd =
        extractComponent env (.vdict [(k, v)]) td jd := rfl
    rw [hx]

/-- C4: a leaf dispatch (no truthy macro entry for the name) invokes the
resolved generator on the component data and passes `job_data` as a
keyword argument exactly when the generator signature declares a parameter
named `job_data`; no error is raised and the state is unchanged. -/
theorem C4_kwargs (env : Env) (fuel : Nat) (ct : String)
    (c td jd : Value) (s : RState) (exEvs : List Event) (nameV cd : Value)
    (s1 : RState) (eps : List (String × Gen)) (g : Gen)
    (hct : ct ∈ env.modules_by_component_type)
    (hex : extractComponent env c td jd = (exEvs, .ok (nameV, cd)))
    (heps : getOrBuildEps env ct nameV (env.component_list_type ct) s =
      (s1, .ok eps))
    (hmac : optTruthy (parserLookup env ct nameV) = false)
    (hg : lookupV eps nameV = some g) :
    dispatch env (fuel + 1) ct c td jd s =
      (s1, exEvs ++ [Event.genCall g.gid nameV cd
        (if memS "job_data" g.args then [("job_data", jd)] else [])], none) := by
  rw [dispatch_leaf env fuel ct c td jd s exEvs nameV cd s1 eps
    hct hex heps hmac]
  unfold epsBranch
  rw [hg]
  simp only [filter_kwargs_single]

/-- Witness for C4: in E4, dispatching `a` (whose generator does not
declare `job_data`) passes no keyword argument, and dispatching `b` (whose
generator declares it) passes `job_data`; neither errors. -/
theorem C4_witness :
    dispatch E4 1 "builder" (.vstr "a") (.vdict []) (.vdict [("j", .vint 7)])
        ⟨[], []⟩ =
      (⟨[], [("builders", [("a", gBuild), ("b", gOther)])]⟩,
        [Event.genCall 0 (.vstr "a") (.vdict []) []], none) ∧
    dispatch E4 1 "builder" (.vstr "b") (.vdict []) (.vdict [("j", .vint 7)])
        ⟨[], []⟩ =
      (⟨[], [("builders", [("a", gBuild), ("b", gOther)])]⟩,
        [Event.genCall 1 (.vstr "b") (.vdict [])
          [("job_data", .vdict [("j", .vint 7)])]], none) := by
  constructor
  · rw [C4_kwargs E4 0 "builder" (.vstr "a") (.vdict [])
      (.vdict [("j", .vint 7)]) ⟨[], []⟩ [] (.vstr "a") (.vdict [])
      ⟨[], [("builders", [("a", gBuild), ("b", gOther)])]⟩
      [("a", gBuild), ("b", gOther)] gBuild (by decide) rfl rfl rfl rfl]
    decide
  · rw [C4_kwargs E4 0 "builder" (.vstr "b") (.vdict [])
      (.vdict [("j", .vint 7)]) ⟨[], []⟩ [] (.vstr "b") (.vdict [])
      ⟨[], [("builders", [("a", gBuild), ("b", gOther)])]⟩
      [("a", gBuild), ("b", gOther)] gOther (by decide) rfl rfl rfl rfl]
    decide

/-- C10: a falsy macro-store entry for the name (for example None or an
empty mapping) is not treated as a macro: dispatch behaves exactly as the
generator branch, which invokes the entry-point generator of that name
when one exists and raises the unknown-name error otherwise; no shadowing
warning is logged (the whole trace contains none). -/
theorem C10_falsy_entry (env : Env) (fuel : Nat) (ct : String)
    (c td jd : Value) (s : RState) (exEvs : List Event) (nameV cd : Value)
    (s1 : RState) (eps : List (String × Gen)) (mv : Value)
    (hct : ct ∈ env.modules_by_component_type)
    (hex : extractComponent env c td jd = (exEvs, .ok (nameV, cd)))
    (heps : getOrBuildEps env ct nameV (env.component_list_type ct) s =
      (s1, .ok eps))
    (hmv : parserLookup env ct nameV = some mv)
    (hfal : truthy mv = false) :
    dispatch env (fuel + 1) ct c td jd s =
      epsBranch eps nameV ct cd jd exEvs s1 ∧
    (∀ g, lookupV eps nameV = some g →
      epsBranch eps nameV ct cd jd exEvs s1 =
        (s1, exEvs ++ [Event.genCall g.gid nameV cd
          (filter_kwargs g.args [("job_data", jd)])], none)) ∧
    (lookupV eps nameV = none →
      epsBranch eps nameV ct cd jd exEvs s1 =
        (s1, exEvs, some (.jjb ("Unknown entry point or macro \x27" ++
          strOf nameV ++ "\x27 for component type: \x27" ++ ct ++ "\x27.")))) ∧
    (∀ x, countWarn x (dispatch env (fuel + 1) ct c td jd s).2.1 = 0) := by
  have hmac : optTruthy (parserLookup env ct nameV) = false := by
    rw [hmv]; simpa [optTruthy] using hfal
  have hleaf := dispatch_leaf env fuel ct c td jd s exEvs nameV cd s1 eps
    hct hex heps hmac
  refine ⟨hleaf, ?_, ?_, ?_⟩
  · intro g hg
    unfold epsBranch
    rw [hg]
  · intro hn
    unfold epsBranch
    rw [hn]
  · intro x
    have h0 := countWarn_extract env c td jd x
    rw [hex] at h0
    simp only at h0
    rw [hleaf, countWarn_epsBranch, h0]

/-- Witness for C10: in E10, the name `x` has an empty-dict (falsy) macro
entry and an entry point, so its generator runs with no warning in the
trace; the name `y` has a None macro entry and no entry point, so the
unknown-name error is raised. -/
theorem C10_witness :
    dispatch E10 1 "builder" (.vstr "x") (.vdict []) .vnone ⟨[], []⟩ =
      (⟨[], [("builders", [("x", gBuild)])]⟩,
        [Event.genCall 0 (.vstr "x") (.vdict []) []], none) ∧
    dispatch E10 1 "builder" (.vstr "y") (.vdict []) .vnone
        ⟨[], [("builders", [("x", gBuild)])]⟩ =
      (⟨[], [("builders", [("x", gBuild)])]⟩, [],
        some (.jjb ("Unknown entry point or macro \x27y\x27 " ++
          "for component type: \x27builder\x27."))) := by
  constructor
  · have h := C10_falsy_entry E10 0 "builder" (.vstr "x") (.vdict []) .vnone
      ⟨[], []⟩ [] (.vstr "x") (.vdict [])
      ⟨[], [("builders", [("x", gBuild)])]⟩ [("x", gBuild)] (.vdict [])
      (by decide) rfl rfl rfl rfl
    rw [h.1, h.2.1 gBuild rfl]
    decide
  · have h := C10_falsy_entry E10 0 "builder" (.vstr "y") (.vdict []) .vnone
      ⟨[], [("builders", [("x", gBuild)])]⟩ [] (.vstr "y") (.vdict [])
      ⟨[], [("builders", [("x", gBuild)])]⟩ [("x", gBuild)] .vnone
      (by decide) rfl rfl rfl rfl
    rw [h.1, h.2.2.1 rfl]
    decide

/-- C3: when the entry-point table for the resolved list type is not yet
cached and the concatenated sources declare a duplicate name, dispatch
raises `JenkinsJobsException` at table-build time; the failed table is not
written to the cache (the returned state is the incoming one unchanged),
so a second dispatch for the same list type rebuilds the table and fails
again with the same error. -/
theorem C3_duplicate_rebuild (env : Env) (fuel fuel2 : Nat) (ct : String)
    (c td jd : Value) (s : RState) (exEvs : List Event) (nameV cd : Value)
    (hct : ct ∈ env.modules_by_component_type)
    (hex : extractComponent env c td jd = (exEvs, .ok (nameV, cd)))
    (hmiss : alookup s.entry_points_cache (env.component_list_type ct) = none)
    (hdup : clash (env.epSources (env.component_list_type ct)) [] = true) :
    dispatch env (fuel + 1) ct c td jd s =
      (s, exEvs, some (.jjb (dupMsg ct nameV))) ∧
    dispatch env (fuel2 + 1) ct c td jd
        (dispatch env (fuel + 1) ct c td jd s).1 =
      (s, exEvs, some (.jjb (dupMsg ct nameV))) := by
  have hb : buildEps ct nameV (env.epSources (env.component_list_type ct)) []
      = .error (.jjb (dupMsg ct nameV)) :=
    buildEps_clash ct nameV _ [] (by simpa using hdup)
  have hge : getOrBuildEps env ct nameV (env.component_list_type ct) s =
      (s, .error (.jjb (dupMsg ct nameV))) := by
    unfold getOrBuildEps
    rw [hmiss]
    simp only
    rw [hb]
  have h1 : dispatch env (fuel + 1) ct c td jd s =
      (s, exEvs, some (.jjb (dupMsg ct nameV))) := by
    rw [dispatch_succ]
    unfold dispatchF
    rw [if_pos hct, hex]
    simp only
    rw [hge]
  refine ⟨h1, ?_⟩
  rw [h1]
  show dispatch env (fuel2 + 1) ct c td jd s = _
  rw [dispatch_succ]
  unfold dispatchF
  rw [if_pos hct, hex]
  simp only
  rw [hge]

/-- Witness for C3: in E3 both sources declare `dup`, so the first and the
second dispatch both fail with the identical duplicate-entry-point error
and the cache stays empty. -/
theorem C3_witness :
    dispatch E3 1 "builder" (.vstr "task") (.vdict []) .vnone ⟨[], []⟩ =
      (⟨[], []⟩, [], some (.jjb (dupMsg "builder" (.vstr "task")))) ∧
    dispatch E3 1 "builder" (.vstr "task") (.vdict []) .vnone
        (dispatch E3 1 "builder" (.vstr "task") (.vdict []) .vnone
          ⟨[], []⟩).1 =
      (⟨[], []⟩, [], some (.jjb (dupMsg "builder" (.vstr "task")))) := by
  have h := C3_duplicate_rebuild E3 0 0 "builder" (.vstr "task") (.vdict [])
    .vnone ⟨[], []⟩ [] (.vstr "task") (.vdict [])
    (by decide) rfl rfl (by decide)
  exact h

/-- C6: when interpolation of the data of a mapping component fails, dispatch
logs the component name with the pre-substitution data and re-raises the
original error unchanged: the returned error is the very value
`deep_format` failed with, no wrapping, and no substituted data is used. -/
theorem C6_reraise (env : Env) (fuel : Nat) (ct : String) (k : String)
    (v : Value) (rest : List (String × Value)) (td jd : Value) (s : RState)
    (pd : List (String × Value)) (e : Err)
    (hct : ct ∈ env.modules_by_component_type)
    (hcond : (truthy td || isJinja v) = true)
    (hpd : paramDict td jd = .ok pd)
    (herr : env.deepFormat v pd env.allow_empty_variables = .error e) :
    dispatch env (fuel + 1) ct (.vdict ((k, v) :: rest)) td jd s =
      (s, [Event.logError (.vstr k) v], some e) := by
  have hex : extractComponent env (.vdict ((k, v) :: rest)) td jd =
      ([Event.logError (.vstr k) v], .error e) := by
    simp only [extractComponent]
    rw [if_pos hcond, hpd]
    simp only
    rw [herr]
  rw [dispatch_succ]
  unfold dispatchF
  rw [if_pos hct, hex]

/-- Witness for C6: in E6 `deepFormat` fails with the external error
`boom`; dispatching a component with template arguments logs the raw data
and returns exactly that error. -/
theorem C6_witness :
    dispatch E6 1 "builder" (.vdict [("a", .vstr "z")]) (.vdict [("t", .vint 2)])
        .vnone ⟨[], []⟩ =
      (⟨[], []⟩, [Event.logError (.vstr "a") (.vstr "z")],
        some (.external "boom")) := by
  exact C6_reraise E6 0 "builder" "a" (.vstr "z") [] (.vdict [("t", .vint 2)])
    .vnone ⟨[], []⟩ [("t", .vint 2)] (.external "boom")
    (by decide) rfl rfl rfl

/-- C2 counterexample: the claim bounds the shadowing warning per name for
the life of the process, but `masked_warned` is an instance attribute
re-initialized by every `ModuleRegistry.__init__` (line 47), while only
`_entry_points_cache` is class-level. A process that constructs two
registries and dispatches the macro-masked name `build` once on each logs
the warning twice, refuting the at-most-once-per-process bound. -/
theorem C2_counterexample :
    countWarn (.vstr "build") (processTwoRegistries E0 3 [c0] [c0]) = 2 ∧
    ¬ countWarn (.vstr "build") (processTwoRegistries E0 3 [c0] [c0]) ≤ 1 := by
  constructor
  · decide
  · decide

/-- C2 (amended): per registry instance the shadowing warning is logged at
most once per name, over any sequence of dispatches and regardless of the
(possibly shared, class-level) entry-point cache the instance starts with;
and for a name that is both a macro and an entry point, dispatch expands
the macro and never the built-in: dispatching the masked name `build`
twice on one registry logs exactly one warning and invokes only the
generator the macro body names (gid 1), never the masked built-in (gid 0). -/
theorem C2_warn_once_per_registry :
    (∀ (env : Env) (fuel : Nat)
       (cache : List (String × List (String × Gen)))
       (calls : List Call) (nm : Value),
       countWarn nm (runCalls env fuel calls ⟨[], cache⟩).2 ≤ 1) ∧
    (runCalls E0 3 [c0, c0] ⟨[], []⟩).2 =
      [Event.warning (.vstr "build") "builder",
       Event.genCall 1 (.vstr "other") (.vdict []) [("job_data", .vnone)],
       Event.genCall 1 (.vstr "other") (.vdict []) [("job_data", .vnone)]] := by
  constructor
  · intro env fuel cache calls nm
    have h := runCalls_warn env nm fuel calls ⟨[], cache⟩
    have h2 := maskBit_le_one nm (runCalls env fuel calls ⟨[], cache⟩).1
    have h3 : maskBit nm ⟨[], cache⟩ = 0 := by simp [maskBit, memV]
    omega
  · decide

/-- With dict arguments, the parameter dict of lines 193-195 is always the
overlay of the job data onto the template arguments. -/
theorem paramDict_dicts (tdm jdm : List (String × Value)) :
    paramDict (.vdict tdm) (.vdict jdm) =
      .ok (dictUpdate (dictUpdate [] tdm) jdm) := by
  unfold paramDict
  cases jdm with
  | nil => simp [pyOr, truthy, asDict, dictUpdate]
  | cons kv rest => simp [pyOr, truthy, asDict]

/-- C5: for a mapping component reference, dispatch substitutes exactly
when the template arguments are non-empty or the component data is a lazy
templated value: with both conditions false the data passes through
untouched and `deep_format` is never consulted, and with either condition
true the extraction is exactly the outcome of `deep_format` under the
parameter dict built by starting from the template arguments and
overlaying the job data; for every key both mappings declare, the job data
value is the one the parameter dict carries. -/
theorem C5_interpolation (env : Env) (k : String) (v : Value)
    (rest tdm jdm : List (String × Value)) :
    ((truthy (.vdict tdm) || isJinja v) = false →
      extractComponent env (.vdict ((k, v) :: rest)) (.vdict tdm) (.vdict jdm)
        = ([], .ok (.vstr k, v))) ∧
    ((truthy (.vdict tdm) || isJinja v) = true →
      extractComponent env (.vdict ((k, v) :: rest)) (.vdict tdm) (.vdict jdm)
        = (match env.deepFormat v (dictUpdate (dictUpdate [] tdm) jdm)
              env.allow_empty_variables with
           | .ok v2 => ([], .ok (.vstr k, v2))
           | .error e => ([Event.logError (.vstr k) v], .error e))) ∧
    (∀ (kk : String) (vv : Value), nodupKeys jdm = true →
      alookup jdm kk = some vv →
      alookup (dictUpdate (dictUpdate [] tdm) jdm) kk = some vv) := by
  refine ⟨?_, ?_, ?_⟩
  · intro h
    simp only [extractComponent]
    rw [if_neg (by simp [h])]
  · intro h
    simp only [extractComponent]
    rw [if_pos h, paramDict_dicts]
  · intro kk vv hnd hl
    exact alookup_dictUpdate_mem jdm _ kk vv hnd hl

/-- Witness for C5: with empty template arguments and plain data no
substitution happens; with template arguments x=1, y=2 and job data y=9
the data is formatted under the overlay x=1, y=9 (E1 echoes the parameter
dict), and the shared key y carries the job-data value 9. -/
theorem C5_witness :
    extractComponent E0 (.vdict [("c", .vstr "raw")]) (.vdict []) (.vdict [])
      = ([], .ok (.vstr "c", .vstr "raw")) ∧
    extractComponent E1 (.vdict [("c", .vstr "raw")])
        (.vdict [("x", .vint 1), ("y", .vint 2)]) (.vdict [("y", .vint 9)])
      = ([], .ok (.vstr "c", .vdict [("x", .vint 1), ("y", .vint 9)])) ∧
    alookup (dictUpdate (dictUpdate [] [("x", .vint 1), ("y", .vint 2)])
        [("y", .vint 9)]) "y" = some (.vint 9) := by
  refine ⟨(C5_interpolation E0 "c" (.vstr "raw") [] [] []).1 (by decide),
    ?_,
    (C5_interpolation E1 "c" (.vstr "raw") []
      [("x", .vint 1), ("y", .vint 2)] [("y", .vint 9)]).2.2
      "y" (.vint 9) (by decide) (by decide)⟩
  rw [(C5_interpolation E1 "c" (.vstr "raw") []
    [("x", .vint 1), ("y", .vint 2)] [("y", .vint 9)]).2.1 (by decide)]
  rfl

/-! ## Lemmas about the version rewrite -/

theorem beginsWith_decomp (pat : List Char) :
    ∀ l, beginsWith pat l = true → l = pat ++ l.drop pat.length := by
  induction pat with
  | nil => intro l _; rfl
  | cons p ps ih =>
    intro l h
    cases l with
    | nil => simp [beginsWith] at h
    | cons c cs =>
      simp only [beginsWith, Bool.and_eq_true, decide_eq_true_eq] at h
      obtain ⟨h1, h2⟩ := h
      subst h1
      simp only [List.length_cons, List.drop_succ_cons, List.cons_append,
        List.cons.injEq, true_and]
      exact ih cs h2

theorem beginsWith_append (pat rest : List Char) :
    beginsWith pat (pat ++ rest) = true := by
  induction pat with
  | nil => rfl
  | cons p ps ih => simp [beginsWith, ih]

theorem lastMarkerAux_marker (l : List Char) :
    ∀ n p, lastMarkerAux l n = some p → markerAt l p = true := by
  intro n
  induction n with
  | zero => intro p h; simp [lastMarkerAux] at h
  | succ m ih =>
    intro p h
    by_cases hm : markerAt l m = true
    · simp only [lastMarkerAux, hm, if_true, Option.some.injEq] at h
      rw [← h]; exact hm
    · simp only [lastMarkerAux, hm, Bool.false_eq_true, if_false] at h
      exact ih p h

theorem lastMarkerAux_isSome (l : List Char) :
    ∀ n p, p < n → markerAt l p = true →
      (lastMarkerAux l n).isSome = true := by
  intro n
  induction n with
  | zero => intro p h; omega
  | succ m ih =>
    intro p hp hm
    by_cases hmm : markerAt l m = true
    · simp [lastMarkerAux, hmm]
    · have hne : p ≠ m := by
        intro hh; rw [hh] at hm; exact hmm hm
      simp only [lastMarkerAux, hmm, Bool.false_eq_true, if_false]
      exact ih p (by omega) hm

/-- A marker at position `p` decomposes the string at `p`. -/
theorem marker_decomp (v : List Char) (p : Nat) (hm : markerAt v p = true) :
    ∃ rest, v = v.take p ++ snapMarker ++ rest ∨
      v = v.take p ++ betaMarker ++ rest := by
  unfold markerAt at hm
  simp only [Bool.or_eq_true] at hm
  rcases hm with hs | hs
  · refine ⟨(v.drop p).drop snapMarker.length, Or.inl ?_⟩
    conv_lhs => rw [← List.take_append_drop p v,
      beginsWith_decomp snapMarker (v.drop p) hs]
    rw [List.append_assoc]
  · refine ⟨(v.drop p).drop betaMarker.length, Or.inr ?_⟩
    conv_lhs => rw [← List.take_append_drop p v,
      beginsWith_decomp betaMarker (v.drop p) hs]
    rw [List.append_assoc]

/-- Conversely, a decomposition of the string puts a marker at the length
of its first part. -/
theorem decomp_marker (base pat rest : List Char)
    (hpat : pat = snapMarker ∨ pat = betaMarker) :
    markerAt (base ++ pat ++ rest) base.length = true := by
  unfold markerAt
  have hd : (base ++ pat ++ rest).drop base.length = pat ++ rest := by
    rw [List.append_assoc, List.drop_left]
  rw [hd]
  rcases hpat with h | h <;> subst h <;> simp [beginsWith_append]

theorem splitLines_no_newline : ∀ (v : List Char), Char.ofNat 10 ∉ v →
    splitLines v = [v] := by
  intro v
  induction v with
  | nil => intro _; rfl
  | cons c cs ih =>
    intro h
    have hc : ¬ c = Char.ofNat 10 := fun hh => h (hh ▸ List.mem_cons_self c cs)
    have hcs : Char.ofNat 10 ∉ cs := fun hh => h (List.mem_cons_of_mem c hh)
    have hch : ¬ c = '\n' := hc
    simp [splitLines, hch, ih hcs]

theorem normalizeVersion_no_newline (v : List Char) (h : Char.ofNat 10 ∉ v) :
    normalizeVersion v = normalizeLine v := by
  unfold normalizeVersion
  rw [splitLines_no_newline v h]
  rfl

/-- C7: over newline-free version strings (every real plugin version), the
regex of lines 71-73 fires exactly on strings containing `-SNAPSHOT` or
`-BETA`; such a string decomposes as `base ++ marker ++ rest` and is
rewritten to `base ++ ".preview"`, while any other string is returned
unchanged. -/
theorem C7_version_rewrite (v : List Char) (hnl : Char.ofNat 10 ∉ v) :
    (hasMarkerB v = true ↔ ∃ base rest,
      v = base ++ snapMarker ++ rest ∨ v = base ++ betaMarker ++ rest) ∧
    (hasMarkerB v = false → normalizeVersion v = v) ∧
    (hasMarkerB v = true → ∃ base rest,
      (v = base ++ snapMarker ++ rest ∨ v = base ++ betaMarker ++ rest) ∧
      normalizeVersion v = base ++ previewSuffix) := by
  have hnorm := normalizeVersion_no_newline v hnl
  refine ⟨⟨?_, ?_⟩, ?_, ?_⟩
  · intro h
    unfold hasMarkerB at h
    cases hp : lastMarkerPos v with
    | none => rw [hp] at h; simp at h
    | some p =>
      have hm := lastMarkerAux_marker v v.length p hp
      obtain ⟨rest, hd⟩ := marker_decomp v p hm
      exact ⟨v.take p, rest, hd⟩
  · rintro ⟨base, rest, h | h⟩ <;> subst h <;>
      [exact lastMarkerAux_isSome _ _ base.length
        (by simp only [List.length_append, snapMarker, List.length_cons,
          List.length_nil]; omega)
        (decomp_marker base snapMarker rest (Or.inl rfl));
       exact lastMarkerAux_isSome _ _ base.length
        (by simp only [List.length_append, betaMarker, List.length_cons,
          List.length_nil]; omega)
        (decomp_marker base betaMarker rest (Or.inr rfl))]
  · intro h
    unfold hasMarkerB at h
    rw [hnorm]
    unfold normalizeLine
    cases hp : lastMarkerPos v with
    | none => rfl
    | some p => rw [hp] at h; simp at h
  · intro h
    unfold hasMarkerB at h
    cases hp : lastMarkerPos v with
    | none => rw [hp] at h; simp at h
    | some p =>
      have hm := lastMarkerAux_marker v v.length p hp
      obtain ⟨rest, hd⟩ := marker_decomp v p hm
      refine ⟨v.take p, rest, hd, ?_⟩
      rw [hnorm]
      unfold normalizeLine
      rw [hp]

/-- Witness for C7: the spec examples. `1.2-SNAPSHOT` decomposes with base
`1.2` and is rewritten to `1.2.preview` (obtained by applying the theorem),
`1.2-BETA3` becomes `1.2.preview`, and `1.2` is returned unchanged. -/
theorem C7_witness :
    (∃ base rest,
      ("1.2-SNAPSHOT".toList = base ++ snapMarker ++ rest ∨
        "1.2-SNAPSHOT".toList = base ++ betaMarker ++ rest) ∧
      normalizeVersion "1.2-SNAPSHOT".toList = base ++ previewSuffix) ∧
    normalizeVersionS "1.2-SNAPSHOT" = "1.2.preview" ∧
    normalizeVersionS "1.2-BETA3" = "1.2.preview" ∧
    normalizeVersionS "1.2" = "1.2" :=
  ⟨(C7_version_rewrite "1.2-SNAPSHOT".toList (by decide)).2.2 (by decide),
    by decide, by decide, by decide⟩

/-! ## Plugin store lemmas -/

theorem alookup_foldl_aliases (as : List Value) (a : Value) (i : Nat) :
    ∀ acc, a ∉ as →
    alookup (as.foldl (fun a2 al => aset a2 al i) acc) a = alookup acc a := by
  induction as with
  | nil => intro acc _; rfl
  | cons al as ih =>
    intro acc h
    have h1 : al ≠ a := fun hh => h (hh ▸ List.mem_cons_self al as)
    have h2 : a ∉ as := fun hh => h (List.mem_cons_of_mem al hh)
    simp only [List.foldl_cons]
    rw [ih _ h2, alookup_aset_ne _ _ _ _ h1]

theorem alookup_buildAliasIndex (a : Value) :
    ∀ (rs : List (List (String × Value))) (i : Nat)
      (acc : List (Value × Nat)),
    (∀ r ∈ rs, a ∉ pluginAliases r) →
    alookup (buildAliasIndex rs i acc) a = alookup acc a := by
  intro rs
  induction rs with
  | nil => intro i acc _; rfl
  | cons r rs ih =>
    intro i acc h
    simp only [buildAliasIndex]
    rw [ih _ _ (fun r2 hr => h r2 (List.mem_cons_of_mem r hr)),
      alookup_foldl_aliases _ _ _ _ (h r (List.mem_cons_self r rs))]

theorem aliasFilter_some (v : Value) (h : v ≠ .vnone) :
    aliasFilter (some v) = some v := by
  cases v with
  | vnone => exact absurd rfl h
  | vbool b => rfl
  | vint n => rfl
  | vstr s => rfl
  | vlist xs => rfl
  | vdict m => rfl
  | vjinja s => rfl

theorem pluginAliases_pair (d : List (String × Value)) (ln sn : Value)
    (hln : alookup d "longName" = some ln)
    (hsn : alookup d "shortName" = some sn)
    (hln0 : ln ≠ .vnone) (hsn0 : sn ≠ .vnone) :
    pluginAliases d = [ln, sn] := by
  unfold pluginAliases
  simp only [List.filterMap_cons, List.filterMap_nil, hln, hsn,
    aliasFilter_some ln hln0, aliasFilter_some sn hsn0]

/-- C8: `get_plugin_info` never fails: an alias no descriptor declares
yields the empty mapping; and for a descriptor declaring both a long and a
short name, both aliases reference the same record of the store (the same
heap index, i.e. the same Python object, not a copy), and queries under
either alias return that one mutated record. -/
theorem C8_get_plugin_info :
    (∀ (pl : List (List (String × Value))) (a : Value),
      (∀ r ∈ pl, a ∉ pluginAliases (mutate_plugin_info r)) →
      get_plugin_info (get_plugins_info_dict pl) a = []) ∧
    (∀ (d : List (String × Value)) (ln sn : Value),
      alookup (mutate_plugin_info d) "longName" = some ln →
      alookup (mutate_plugin_info d) "shortName" = some sn →
      ln ≠ .vnone → sn ≠ .vnone →
      getPluginRef (get_plugins_info_dict [d]) ln = some 0 ∧
      getPluginRef (get_plugins_info_dict [d]) sn = some 0 ∧
      get_plugin_info (get_plugins_info_dict [d]) ln =
        mutate_plugin_info d ∧
      get_plugin_info (get_plugins_info_dict [d]) sn =
        mutate_plugin_info d) := by
  constructor
  · intro pl a h
    unfold get_plugin_info getPluginRef get_plugins_info_dict
    have hb := alookup_buildAliasIndex a (pl.map mutate_plugin_info) 0 []
      (by
        intro r hr
        obtain ⟨r0, hr0, rfl⟩ := List.mem_map.mp hr
        exact h r0 hr0)
    simp only
    rw [hb]
    rfl
  · intro d ln sn hln hsn hln0 hsn0
    have hal : pluginAliases (mutate_plugin_info d) = [ln, sn] :=
      pluginAliases_pair _ ln sn hln hsn hln0 hsn0
    have hidx : (get_plugins_info_dict [d]).aliasIndex =
        aset (aset [] ln 0) sn 0 := by
      simp only [get_plugins_info_dict, List.map, buildAliasIndex, hal,
        List.foldl]
    have href_ln : getPluginRef (get_plugins_info_dict [d]) ln = some 0 := by
      unfold getPluginRef
      rw [hidx]
      by_cases hls : sn = ln
      · subst hls; rw [alookup_aset_self]
      · rw [alookup_aset_ne _ _ _ _ hls, alookup_aset_self]
    have href_sn : getPluginRef (get_plugins_info_dict [d]) sn = some 0 := by
      unfold getPluginRef
      rw [hidx, alookup_aset_self]
    refine ⟨href_ln, href_sn, ?_, ?_⟩
    · unfold get_plugin_info
      rw [href_ln]
      rfl
    · unfold get_plugin_info
      rw [href_sn]
      rfl

/-- A concrete plugin descriptor declaring both names and a snapshot
version. -/
def d0 : List (String × Value) :=
  [("longName", .vstr "X"), ("shortName", .vstr "x"),
   ("version", .vstr "1.2-SNAPSHOT")]

/-- Witness for C8: both aliases of d0 reference record 0, the query under
the long name returns the mutated record (version rewritten to
`1.2.preview`), and an unknown alias yields the empty mapping. -/
theorem C8_witness :
    getPluginRef (get_plugins_info_dict [d0]) (.vstr "X") = some 0 ∧
    getPluginRef (get_plugins_info_dict [d0]) (.vstr "x") = some 0 ∧
    get_plugin_info (get_plugins_info_dict [d0]) (.vstr "X") =
      [("longName", .vstr "X"), ("shortName", .vstr "x"),
       ("version", .vstr "1.2.preview")] ∧
    get_plugin_info (get_plugins_info_dict [d0]) (.vstr "nonexistent") = [] := by
  have h := C8_get_plugin_info.2 d0 (.vstr "X") (.vstr "x") rfl rfl
    (by decide) (by decide)
  refine ⟨h.1, h.2.1, ?_,
    C8_get_plugin_info.1 [d0] (.vstr "nonexistent") (by decide)⟩
  rw [h.2.2.1]
  decide

end JJB
